import Mathlib

/-!
Shallow embedding of the DynamoDB-backed chat data-access layer
(`src/models/chat-model.ts` and `src/dal/chats.ts`).

The table is modelled as lists of chat items and message items; DynamoDB
range-query ordering is modelled by lexicographic comparison of sort-key
strings (DynamoDB compares string keys bytewise, which on ASCII keys agrees
with code-point order). Clock reads (`new Date().toISOString()`) and UUID
generation (`crypto.randomUUID()`) are external effects, passed in as
explicit string parameters.
-/

namespace ChatDal

/-- Role attribute of a chat message: the closed set `{user, assistant}`
from `ChatMessageEntity.attributes.role`. -/
inductive Role where
  | user
  | assistant
  deriving DecidableEq, Repr

/-- A `Chat` item, after `ChatEntity.attributes` in `chat-model.ts`. -/
structure ChatItem where
  chatId : String
  userId : String
  name : String
  createdAt : String
  updatedAt : String
  deriving DecidableEq, Repr

/-- A `ChatMessage` item, after `ChatMessageEntity.attributes`. -/
structure MessageItem where
  chatId : String
  messageId : String
  userId : String
  createdAt : String
  updatedAt : String
  content : String
  reasoningContent : Option String
  role : Role
  deriving DecidableEq, Repr

/-- The single DynamoDB table (`ChatsTable`) holding both item kinds. -/
structure Table where
  chats : List ChatItem
  messages : List MessageItem
  deriving DecidableEq, Repr

/-- Lexicographic order on character lists: the model of DynamoDB string
sort-key comparison. -/
def lexLt : List Char → List Char → Bool
  | [], [] => false
  | [], _ :: _ => true
  | _ :: _, [] => false
  | a :: as, b :: bs => if a < b then true else if b < a then false else lexLt as bs

/-- Lexicographic order on strings (sort-key comparison). -/
def strLt (a b : String) : Bool :=
  lexLt a.data b.data

/-- Chat primary partition key, template `CHAT#{chatId}`. -/
def chatPk (chatId : String) : String :=
  "CHAT#" ++ chatId

/-- Chat primary sort key, the constant template `METADATA`. -/
def chatSk : String :=
  "METADATA"

/-- Message primary partition key, template `CHAT#{chatId}` (same partition
as the owning chat). -/
def msgPk (chatId : String) : String :=
  "CHAT#" ++ chatId

/-- Message primary sort key, template `MSG#{createdAt}#{messageId}`. -/
def msgSk (createdAt messageId : String) : String :=
  "MSG#" ++ createdAt ++ "#" ++ messageId

/-- Sort key of a stored message item. -/
def skOf (m : MessageItem) : String :=
  msgSk m.createdAt m.messageId

/-- Insert a message into a list that is sorted by sort key. -/
def insertBySk (m : MessageItem) : List MessageItem → List MessageItem
  | [] => [m]
  | x :: xs => if strLt (skOf x) (skOf m) then x :: insertBySk m xs else m :: x :: xs

/-- Sort messages by sort key: models the ordering of a DynamoDB range
query over the partition. -/
def sortBySk : List MessageItem → List MessageItem
  | [] => []
  | x :: xs => insertBySk x (sortBySk xs)

/-- Errors surfaced by the access layer (§7 of the spec): empty `userId`
(`userId is required`), schema validation failure, a missing or non-owned
resource (`... not found or access denied`), and a conditional-write
conflict from the storage layer. -/
inductive DalError where
  | invalidArgument
  | validation
  | notFound
  | conflict
  deriving DecidableEq, Repr

/-- Name validation from `ChatEntity.attributes.name.validate`:
`value.length > 0 && value.length <= 100`. -/
def validName (name : String) : Bool :=
  decide (0 < name.length) && decide (name.length ≤ 100)

/-- Body of `getChatForUser` after the `userId` guard: get the chat by key
and return it only if its `userId` matches the caller
(`chat?.userId === userId ? chat : null`). -/
def ownedChat (t : Table) (chatId userId : String) : Option ChatItem :=
  match t.chats.find? (fun c => c.chatId == chatId) with
  | some chat => if chat.userId == userId then some chat else none
  | none => none

/-- `Chats.getChatForUser`: throws `userId is required` on empty userId,
otherwise returns the chat or null. -/
def getChatForUser (t : Table) (chatId userId : String) :
    Except DalError (Option ChatItem) :=
  if userId = "" then .error .invalidArgument
  else .ok (ownedChat t chatId userId)

/-- Result of `messageEntity.query.primary({ chatId })`: all messages in
the chat partition, in sort-key order. -/
def queryMessages (t : Table) (chatId : String) : List MessageItem :=
  sortBySk (t.messages.filter (fun m => m.chatId == chatId))

/-- `Chats.getMessagesForChat`: verifies ownership via `getChatForUser`,
returns `[]` when the chat is absent or not owned, otherwise the range
query over the partition. -/
def getMessagesForChat (t : Table) (chatId userId : String) :
    Except DalError (List MessageItem) :=
  if userId = "" then .error .invalidArgument
  else
    match ownedChat t chatId userId with
    | none => .ok []
    | some _ => .ok (queryMessages t chatId)

/-- `chatEntity.update({ chatId }).set({})` / `.patch({ chatId }).set({})`:
the auto-updated `updatedAt` attribute (`set: () => new Date().toISOString()`,
documented as updating on every modification to the item) is refreshed to
the touch time. -/
def touchChats (chats : List ChatItem) (chatId now : String) : List ChatItem :=
  chats.map (fun c => if c.chatId == chatId then { c with updatedAt := now } else c)

/-- `chatEntity.patch({ chatId }).set({})` as used in `deleteMessage`:
`patch` carries an existence condition, so it fails when the chat item is
absent. -/
def touchChatPatch (t : Table) (chatId now : String) : Except DalError Table :=
  if t.chats.any (fun c => c.chatId == chatId) then
    .ok { t with chats := touchChats t.chats chatId now }
  else .error .conflict

/-- `Chats.createChat userId name`: guards `userId`, validates `name`
(schema hook), creates the chat with generated `chatId = genId` and
`createdAt = updatedAt = now`; `create` carries a not-exists condition on
the key. -/
def createChat (t : Table) (userId name genId now : String) :
    Except DalError (ChatItem × Table) :=
  if userId = "" then .error .invalidArgument
  else if !(validName name) then .error .validation
  else if t.chats.any (fun c => c.chatId == genId) then .error .conflict
  else
    let chat : ChatItem := ⟨genId, userId, name, now, now⟩
    .ok (chat, { t with chats := t.chats ++ [chat] })

/-- `Chats.createMessage`: guards `userId`, checks the chat exists and is
owned (else `not found or access denied`), creates the message with
generated `messageId = genId` and `createdAt = updatedAt = now`, then
touches the parent chat's `updatedAt` at time `touchNow`. -/
def createMessage (t : Table) (chatId userId content : String) (role : Role)
    (reasoningContent : Option String) (genId now touchNow : String) :
    Except DalError (MessageItem × Table) :=
  if userId = "" then .error .invalidArgument
  else
    match ownedChat t chatId userId with
    | none => .error .notFound
    | some _ =>
      if t.messages.any (fun m =>
          m.chatId == chatId && m.createdAt == now && m.messageId == genId) then
        .error .conflict
      else
        let msg : MessageItem :=
          ⟨chatId, genId, userId, now, now, content, reasoningContent, role⟩
        .ok (msg,
          { chats := touchChats t.chats chatId touchNow,
            messages := t.messages ++ [msg] })

/-- `Chats.updateChatName`: guards `userId`, checks ownership (else
NotFound), then patches the name (validated by the schema hook), with
`updatedAt` auto-refreshed; returns the updated item (`response: all_new`). -/
def updateChatName (t : Table) (chatId userId name now : String) :
    Except DalError (ChatItem × Table) :=
  if userId = "" then .error .invalidArgument
  else
    match ownedChat t chatId userId with
    | none => .error .notFound
    | some chat =>
      if !(validName name) then .error .validation
      else
        .ok ({ chat with name := name, updatedAt := now },
          { t with chats := t.chats.map (fun c =>
              if c.chatId == chatId then { c with name := name, updatedAt := now }
              else c) })

/-- `Chats.updateMessage`: guards `userId`, checks chat ownership (else
NotFound), scans the chat's message range for the `messageId` (else
NotFound), patches `content` (and `reasoningContent` only when the
argument is present), `updatedAt` auto-refreshed, then touches the parent
chat. -/
def updateMessage (t : Table) (chatId messageId userId content : String)
    (reasoningContent : Option String) (now touchNow : String) :
    Except DalError (MessageItem × Table) :=
  if userId = "" then .error .invalidArgument
  else
    match ownedChat t chatId userId with
    | none => .error .notFound
    | some _ =>
      match (queryMessages t chatId).find? (fun m => m.messageId == messageId) with
      | none => .error .notFound
      | some message =>
        let updated : MessageItem :=
          { message with
            content := content
            reasoningContent :=
              match reasoningContent with
              | some r => some r
              | none => message.reasoningContent
            updatedAt := now }
        .ok (updated,
          { chats := touchChats t.chats chatId touchNow,
            messages := t.messages.map (fun m =>
              if m.chatId == chatId && m.createdAt == message.createdAt
                  && m.messageId == messageId then updated else m) })

/-- `messageEntity.delete` by full composite key (chatId, createdAt,
messageId). -/
def deleteMessageKey (msgs : List MessageItem) (chatId createdAt messageId : String) :
    List MessageItem :=
  msgs.filter (fun m =>
    !(m.chatId == chatId && m.createdAt == createdAt && m.messageId == messageId))

/-- `Chats.deleteChat`: guards `userId`; returns `false` (no error) when
the chat is absent or not owned; otherwise deletes every message returned
by the range query by its full key, then the chat item, and returns
`true`. -/
def deleteChat (t : Table) (chatId userId : String) :
    Except DalError (Bool × Table) :=
  if userId = "" then .error .invalidArgument
  else
    match ownedChat t chatId userId with
    | none => .ok (false, t)
    | some _ =>
      let remaining := (queryMessages t chatId).foldl
        (fun acc m => deleteMessageKey acc chatId m.createdAt m.messageId)
        t.messages
      .ok (true,
        { chats := t.chats.filter (fun c => !(c.chatId == chatId)),
          messages := remaining })

/-- `Chats.deleteMessage`: guards `userId`; scans the chat's message range
for the `messageId` and requires the stored author to equal the caller
(`!message || message.userId !== userId` → NotFound) — there is no chat
ownership check; deletes the message by full key, then patches the parent
chat's `updatedAt`. -/
def deleteMessage (t : Table) (chatId messageId userId touchNow : String) :
    Except DalError (Bool × Table) :=
  if userId = "" then .error .invalidArgument
  else
    match (queryMessages t chatId).find? (fun m => m.messageId == messageId) with
    | none => .error .notFound
    | some message =>
      if !(message.userId == userId) then .error .notFound
      else
        let t1 : Table :=
          { t with messages :=
              deleteMessageKey t.messages chatId message.createdAt messageId }
        match touchChatPatch t1 chatId touchNow with
        | .error e => .error e
        | .ok t2 => .ok (true, t2)

/-- Sample chat owned by user `u1`, used in concrete witnesses. -/
def chatA : ChatItem :=
  ⟨"c1", "u1", "general", "2024-05-01T10:00:00.000Z", "2024-05-01T10:00:00.000Z"⟩

/-- Sample chat owned by user `u2`. -/
def chatB : ChatItem :=
  ⟨"c2", "u2", "other", "2024-05-01T09:00:00.000Z", "2024-05-01T09:00:00.000Z"⟩

/-- Sample user message in chat `c1`, authored by `u1`. -/
def msgA : MessageItem :=
  ⟨"c1", "m1", "u1", "2024-05-01T10:01:00.000Z", "2024-05-01T10:01:00.000Z",
    "hello", none, .user⟩

/-- Sample assistant message in chat `c1` (stored `userId` is the synthetic
sender `assistant`). -/
def msgAssist : MessageItem :=
  ⟨"c1", "m2", "assistant", "2024-05-01T10:02:00.000Z", "2024-05-01T10:02:00.000Z",
    "hi there", none, .assistant⟩

/-- Sample message in chat `c2` (owned by `u2`) but authored by `u1`. -/
def msgCross : MessageItem :=
  ⟨"c2", "m3", "u1", "2024-05-01T10:03:00.000Z", "2024-05-01T10:03:00.000Z",
    "question", none, .user⟩

/-- Sample table state for the concrete witnesses. -/
def tableA : Table :=
  ⟨[chatA, chatB], [msgA, msgAssist, msgCross]⟩

/-! Helper lemmas about the sort-order model. -/

theorem lexLt_append_left (p u v : List Char) :
    lexLt (p ++ u) (p ++ v) = lexLt u v := by
  induction p with
  | nil => rfl
  | cons a as ih => simp [lexLt, ih]

theorem lexLt_append_of_lt (as bs xs ys : List Char)
    (hlen : as.length = bs.length) (hlt : lexLt as bs = true) :
    lexLt (as ++ xs) (bs ++ ys) = true := by
  induction as generalizing bs with
  | nil =>
    cases bs with
    | nil => simp [lexLt] at hlt
    | cons b bs => simp at hlen
  | cons a as ih =>
    cases bs with
    | nil => simp at hlen
    | cons b bs =>
      simp only [List.cons_append, lexLt] at hlt ⊢
      by_cases hab : a < b
      · simp [hab]
      · by_cases hba : b < a
        · simp [hab, hba] at hlt
        · simp only [if_neg hab, if_neg hba] at hlt ⊢
          exact ih bs (by simpa using hlen) hlt

theorem mem_insertBySk (z m : MessageItem) (l : List MessageItem) :
    z ∈ insertBySk m l ↔ z = m ∨ z ∈ l := by
  induction l with
  | nil => simp [insertBySk]
  | cons x xs ih =>
    simp only [insertBySk]
    split
    · simp only [List.mem_cons, ih]
      tauto
    · simp only [List.mem_cons]

theorem mem_sortBySk (z : MessageItem) (l : List MessageItem) :
    z ∈ sortBySk l ↔ z ∈ l := by
  induction l with
  | nil => simp [sortBySk]
  | cons x xs ih => simp [sortBySk, mem_insertBySk, ih]

theorem find?_update_chatId (l : List ChatItem) (chatId : String)
    (g : ChatItem → ChatItem) (hg : ∀ c, (g c).chatId = c.chatId) :
    (l.map (fun c => if c.chatId == chatId then g c else c)).find?
        (fun c => c.chatId == chatId)
      = (l.find? (fun c => c.chatId == chatId)).map g := by
  induction l with
  | nil => rfl
  | cons c cs ih =>
    simp only [List.map_cons]
    by_cases h : (c.chatId == chatId) = true
    · have hgc : ((g c).chatId == chatId) = true := by rw [hg]; exact h
      rw [if_pos h, List.find?_cons_of_pos (p := fun x : ChatItem => x.chatId == chatId) _ hgc,
        List.find?_cons_of_pos (p := fun x : ChatItem => x.chatId == chatId) _ h]
      rfl
    · rw [if_neg h, List.find?_cons_of_neg (p := fun x : ChatItem => x.chatId == chatId) _ h,
        List.find?_cons_of_neg (p := fun x : ChatItem => x.chatId == chatId) _ h]
      exact ih

theorem mem_foldl_deleteMessageKey (chatId : String) (qs : List MessageItem)
    (acc : List MessageItem) (z : MessageItem)
    (hz : z ∈ qs.foldl (fun a m => deleteMessageKey a chatId m.createdAt m.messageId) acc) :
    z ∈ acc ∧ ∀ q ∈ qs,
      ¬(z.chatId = chatId ∧ z.createdAt = q.createdAt ∧ z.messageId = q.messageId) := by
  induction qs generalizing acc with
  | nil => simpa using hz
  | cons q qs ih =>
    simp only [List.foldl_cons] at hz
    obtain ⟨hzmem, hrest⟩ := ih _ hz
    simp only [deleteMessageKey, List.mem_filter] at hzmem
    obtain ⟨hzacc, hkey⟩ := hzmem
    refine ⟨hzacc, ?_⟩
    intro p hp
    rcases List.mem_cons.mp hp with rfl | hp2
    · intro ⟨h1, h2, h3⟩
      simp [h1, h2, h3] at hkey
    · exact hrest p hp2

theorem msgSk_data (u i : String) :
    (msgSk u i).data = "MSG#".data ++ (u.data ++ ('#' :: i.data)) := by
  simp [msgSk, String.data_append, show ("#" : String).data = ['#'] from rfl]

theorem ownedChat_some (t : Table) (chatId userId : String) (chat : ChatItem)
    (hfind : t.chats.find? (fun c => c.chatId == chatId) = some chat)
    (hown : chat.userId = userId) :
    ownedChat t chatId userId = some chat := by
  simp [ownedChat, hfind, hown]

theorem ownedChat_none (t : Table) (chatId userId : String)
    (habs : ∀ c ∈ t.chats, c.chatId = chatId → c.userId ≠ userId) :
    ownedChat t chatId userId = none := by
  unfold ownedChat
  cases hfind : t.chats.find? (fun c => c.chatId == chatId) with
  | none => rfl
  | some c =>
    have hmem := List.mem_of_find?_eq_some hfind
    have hcid : c.chatId = chatId := by simpa using List.find?_some hfind
    simp [habs c hmem hcid]

theorem find?_touchChats (l : List ChatItem) (chatId now : String) :
    (touchChats l chatId now).find? (fun c => c.chatId == chatId)
      = (l.find? (fun c => c.chatId == chatId)).map
          (fun c => { c with updatedAt := now }) :=
  find?_update_chatId l chatId (fun c => { c with updatedAt := now }) (fun _ => rfl)

/-- C1: a chat and its messages share the partition key `CHAT#{chatId}`;
the metadata sort key `METADATA` sorts lexicographically strictly before
every message sort key `MSG#{createdAt}#{messageId}`; and message sort keys
order messages by `createdAt` (for equal-length timestamp encodings, as with
fixed-width ISO-8601) with `messageId` as tiebreak for equal timestamps —
so a single range query over the partition returns the metadata item first
and then the messages chronologically. -/
theorem chat_message_key_layout :
    (∀ chatId, chatPk chatId = msgPk chatId) ∧
    (∀ createdAt messageId, strLt chatSk (msgSk createdAt messageId) = true) ∧
    (∀ t1 i1 t2 i2, t1.length = t2.length → strLt t1 t2 = true →
      strLt (msgSk t1 i1) (msgSk t2 i2) = true) ∧
    (∀ u i1 i2, strLt i1 i2 = true → strLt (msgSk u i1) (msgSk u i2) = true) := by
  refine ⟨fun _ => rfl, ?_, ?_, ?_⟩
  · intro createdAt messageId
    show lexLt chatSk.data (msgSk createdAt messageId).data = true
    rw [msgSk_data]
    rw [show chatSk.data = 'M' :: 'E' :: 'T' :: 'A' :: 'D' :: 'A' :: 'T' :: 'A' :: [] from rfl]
    rw [show ("MSG#" : String).data = 'M' :: 'S' :: 'G' :: '#' :: [] from rfl]
    simp [lexLt, (by decide : ¬ ('M' : Char) < 'M'), (by decide : ('E' : Char) < 'S')]
  · intro t1 i1 t2 i2 hlen hlt
    show lexLt (msgSk t1 i1).data (msgSk t2 i2).data = true
    rw [msgSk_data, msgSk_data, lexLt_append_left]
    exact lexLt_append_of_lt _ _ _ _ hlen hlt
  · intro u i1 i2 hlt
    show lexLt (msgSk u i1).data (msgSk u i2).data = true
    rw [msgSk_data, msgSk_data, lexLt_append_left, lexLt_append_left]
    simpa [lexLt, (by decide : ¬ ('#' : Char) < '#')] using hlt

/-- Witness for C1 at concrete timestamps and message identifiers. -/
theorem chat_message_key_layout_witness :
    strLt (msgSk "2024-05-01T10:00:00.000Z" "aaa")
      (msgSk "2024-05-01T10:00:01.000Z" "zzz") = true ∧
    strLt (msgSk "2024-05-01T10:00:00.000Z" "aaa")
      (msgSk "2024-05-01T10:00:00.000Z" "abc") = true :=
  ⟨chat_message_key_layout.2.2.1 "2024-05-01T10:00:00.000Z" "aaa"
      "2024-05-01T10:00:01.000Z" "zzz" (by decide) (by decide),
    chat_message_key_layout.2.2.2 "2024-05-01T10:00:00.000Z" "aaa" "abc" (by decide)⟩

/-- C3: for every non-empty userId and every name of length 1 to 100,
`createChat` returns a Chat whose name equals the given name exactly, whose
chatId is the freshly generated identifier, and whose createdAt equals its
updatedAt at creation time. -/
theorem createChat_fresh_echo (t : Table) (userId name genId now : String)
    (hu : userId ≠ "") (hlen1 : 0 < name.length) (hlen2 : name.length ≤ 100)
    (hfresh : ∀ c ∈ t.chats, c.chatId ≠ genId) :
    ∃ chat t', createChat t userId name genId now = .ok (chat, t') ∧
      chat.chatId = genId ∧ chat.name = name ∧ chat.userId = userId ∧
      chat.createdAt = chat.updatedAt := by
  have hv : validName name = true := by simp [validName, hlen1, hlen2]
  have hany : t.chats.any (fun c => c.chatId == genId) = false := by
    rw [List.any_eq_false]
    intro c hc
    simpa using hfresh c hc
  refine ⟨⟨genId, userId, name, now, now⟩,
    { t with chats := t.chats ++ [⟨genId, userId, name, now, now⟩] },
    ?_, rfl, rfl, rfl, rfl⟩
  simp [createChat, hu, hv, hany]

/-- Witness for C3: creating a chat in the sample table. -/
theorem createChat_fresh_echo_witness :
    ∃ chat t',
      createChat tableA "u3" "my chat" "c9" "2024-06-01T00:00:00.000Z" =
        .ok (chat, t') ∧
      chat.chatId = "c9" ∧ chat.name = "my chat" ∧ chat.userId = "u3" ∧
      chat.createdAt = chat.updatedAt :=
  createChat_fresh_echo tableA "u3" "my chat" "c9" "2024-06-01T00:00:00.000Z"
    (by decide) (by decide) (by decide) (by decide)

/-- C4: when no chat with the given chatId exists or the stored chat's
userId differs from the caller's, `getChatForUser` returns null and
`getMessagesForChat` returns the empty sequence; neither raises an
error. -/
theorem reads_on_absent_or_unowned (t : Table) (chatId userId : String)
    (hu : userId ≠ "")
    (habs : ∀ c ∈ t.chats, c.chatId = chatId → c.userId ≠ userId) :
    getChatForUser t chatId userId = .ok none ∧
    getMessagesForChat t chatId userId = .ok [] := by
  have h := ownedChat_none t chatId userId habs
  constructor
  · simp [getChatForUser, hu, h]
  · simp [getMessagesForChat, hu, h]

/-- Witness for C4: `u1` probing `u2`'s chat in the sample table. -/
theorem reads_on_absent_or_unowned_witness :
    getChatForUser tableA "c2" "u1" = .ok none ∧
    getMessagesForChat tableA "c2" "u1" = .ok [] :=
  reads_on_absent_or_unowned tableA "c2" "u1" (by decide) (by decide)

/-- C5: when the referenced chat does not exist or is not owned by the
caller, the write-oriented operations `createMessage`, `updateChatName`,
and `updateMessage` fail with NotFound; for `createMessage` this holds
regardless of the content and role arguments. -/
theorem writes_on_absent_or_unowned (t : Table) (chatId userId : String)
    (hu : userId ≠ "")
    (habs : ∀ c ∈ t.chats, c.chatId = chatId → c.userId ≠ userId) :
    (∀ content role rc genId now touchNow,
      createMessage t chatId userId content role rc genId now touchNow =
        .error .notFound) ∧
    (∀ name now,
      updateChatName t chatId userId name now = .error .notFound) ∧
    (∀ messageId content rc now touchNow,
      updateMessage t chatId messageId userId content rc now touchNow =
        .error .notFound) := by
  have h := ownedChat_none t chatId userId habs
  refine ⟨?_, ?_, ?_⟩ <;> intros <;>
    simp [createMessage, updateChatName, updateMessage, hu, h]

/-- Witness for C5: write operations against `u2`'s chat by `u1` in the
sample table. -/
theorem writes_on_absent_or_unowned_witness :
    createMessage tableA "c2" "u1" "x" .user none "g1"
      "2024-06-01T00:00:00.000Z" "2024-06-01T00:00:00.000Z" =
        .error .notFound ∧
    updateChatName tableA "c2" "u1" "newname" "2024-06-01T00:00:00.000Z" =
      .error .notFound ∧
    updateMessage tableA "c2" "m3" "u1" "x" none
      "2024-06-01T00:00:00.000Z" "2024-06-01T00:00:00.000Z" =
        .error .notFound := by
  have h := writes_on_absent_or_unowned tableA "c2" "u1" (by decide) (by decide)
  exact ⟨h.1 "x" .user none "g1" _ _, h.2.1 "newname" _, h.2.2 "m3" "x" none _ _⟩

/-- C2: a successful `createMessage` on a chat owned by the caller re-saves
the chat item, so the parent chat's `updatedAt` afterwards equals the touch
time and is greater than or equal to (not lexicographically below) its value
before the call, given the clock did not run backwards. -/
theorem createMessage_touches_updatedAt (t : Table)
    (chatId userId content : String) (role : Role) (rc : Option String)
    (genId now touchNow : String) (chat : ChatItem)
    (hu : userId ≠ "")
    (hfind : t.chats.find? (fun c => c.chatId == chatId) = some chat)
    (hown : chat.userId = userId)
    (hfresh : ∀ m ∈ t.messages,
      ¬(m.chatId = chatId ∧ m.createdAt = now ∧ m.messageId = genId))
    (hclock : strLt touchNow chat.updatedAt = false) :
    ∃ msg t' chat',
      createMessage t chatId userId content role rc genId now touchNow =
        .ok (msg, t') ∧
      t'.chats.find? (fun c => c.chatId == chatId) = some chat' ∧
      chat'.updatedAt = touchNow ∧
      strLt chat'.updatedAt chat.updatedAt = false := by
  have howned := ownedChat_some t chatId userId chat hfind hown
  have hany : t.messages.any (fun m =>
      m.chatId == chatId && m.createdAt == now && m.messageId == genId) = false := by
    rw [List.any_eq_false]
    intro m hm
    simpa using hfresh m hm
  refine ⟨⟨chatId, genId, userId, now, now, content, rc, role⟩,
    { chats := touchChats t.chats chatId touchNow,
      messages := t.messages ++ [⟨chatId, genId, userId, now, now, content, rc, role⟩] },
    { chat with updatedAt := touchNow }, ?_, ?_, rfl, ?_⟩
  · simp [createMessage, hu, howned, hany]
  · show (touchChats t.chats chatId touchNow).find? (fun c => c.chatId == chatId)
      = some { chat with updatedAt := touchNow }
    rw [find?_touchChats, hfind]
    rfl
  · exact hclock

/-- Witness for C2: `u1` posting a message to their own chat in the sample
table. -/
theorem createMessage_touches_updatedAt_witness :
    ∃ msg t' chat',
      createMessage tableA "c1" "u1" "new msg" .user none "m9"
        "2024-05-01T11:00:00.000Z" "2024-05-01T11:00:00.000Z" =
          .ok (msg, t') ∧
      t'.chats.find? (fun c => c.chatId == "c1") = some chat' ∧
      chat'.updatedAt = "2024-05-01T11:00:00.000Z" ∧
      strLt chat'.updatedAt chatA.updatedAt = false :=
  createMessage_touches_updatedAt tableA "c1" "u1" "new msg" .user none "m9"
    "2024-05-01T11:00:00.000Z" "2024-05-01T11:00:00.000Z" chatA
    (by decide) (by decide) (by decide) (by decide) (by decide)

/-- C6: `deleteChat` returns false without error when the chat is absent
or not owned; when the chat is owned it deletes every message in the
chat's partition and the chat item itself and returns true, so afterwards
`getMessagesForChat` returns the empty sequence and `getChatForUser`
returns null. -/
theorem deleteChat_cascade (t : Table) (chatId userId : String)
    (hu : userId ≠ "") :
    ((∀ c ∈ t.chats, c.chatId = chatId → c.userId ≠ userId) →
      deleteChat t chatId userId = .ok (false, t)) ∧
    (∀ chat, t.chats.find? (fun c => c.chatId == chatId) = some chat →
      chat.userId = userId →
      ∃ t', deleteChat t chatId userId = .ok (true, t') ∧
        t'.messages.filter (fun m => m.chatId == chatId) = [] ∧
        getChatForUser t' chatId userId = .ok none ∧
        getMessagesForChat t' chatId userId = .ok []) := by
  constructor
  · intro habs
    have h := ownedChat_none t chatId userId habs
    simp [deleteChat, hu, h]
  · intro chat hfind hown
    have howned := ownedChat_some t chatId userId chat hfind hown
    refine ⟨⟨t.chats.filter (fun c => !(c.chatId == chatId)),
      (queryMessages t chatId).foldl
        (fun acc m => deleteMessageKey acc chatId m.createdAt m.messageId)
        t.messages⟩, ?_, ?_, ?_, ?_⟩
    · simp [deleteChat, hu, howned]
    · rw [List.filter_eq_nil_iff]
      intro m hm hb
      obtain ⟨hmem, hkeys⟩ := mem_foldl_deleteMessageKey chatId _ _ m hm
      have hc : m.chatId = chatId := by simpa using hb
      have hq : m ∈ queryMessages t chatId := by
        rw [queryMessages, mem_sortBySk, List.mem_filter]
        exact ⟨hmem, by simp [hc]⟩
      exact hkeys m hq ⟨hc, rfl, rfl⟩
    · have hoc : ownedChat
          ⟨t.chats.filter (fun c => !(c.chatId == chatId)),
            (queryMessages t chatId).foldl
              (fun acc m => deleteMessageKey acc chatId m.createdAt m.messageId)
              t.messages⟩ chatId userId = none := by
        apply ownedChat_none
        intro c hc hcid
        have := (List.mem_filter.mp hc).2
        simp [hcid] at this
      simp [getChatForUser, hu, hoc]
    · have hoc : ownedChat
          ⟨t.chats.filter (fun c => !(c.chatId == chatId)),
            (queryMessages t chatId).foldl
              (fun acc m => deleteMessageKey acc chatId m.createdAt m.messageId)
              t.messages⟩ chatId userId = none := by
        apply ownedChat_none
        intro c hc hcid
        have := (List.mem_filter.mp hc).2
        simp [hcid] at this
      simp [getMessagesForChat, hu, hoc]

/-- Witness for C6: deleting `u1`'s chat `c1` (which holds two messages) in
the sample table, and the false-return on `u2`'s chat. -/
theorem deleteChat_cascade_witness :
    deleteChat tableA "c2" "u1" = .ok (false, tableA) ∧
    ∃ t', deleteChat tableA "c1" "u1" = .ok (true, t') ∧
      t'.messages.filter (fun m => m.chatId == "c1") = [] ∧
      getChatForUser t' "c1" "u1" = .ok none ∧
      getMessagesForChat t' "c1" "u1" = .ok [] :=
  ⟨(deleteChat_cascade tableA "c2" "u1" (by decide)).1 (by decide),
    (deleteChat_cascade tableA "c1" "u1" (by decide)).2 chatA (by decide) (by decide)⟩

theorem deleteMessage_mismatch_aux (t : Table)
    (chatId messageId userId touchNow : String)
    (hu : userId ≠ "")
    (hnone : ∀ m ∈ t.messages, m.chatId = chatId → m.messageId = messageId →
      m.userId ≠ userId) :
    deleteMessage t chatId messageId userId touchNow = .error .notFound := by
  unfold deleteMessage
  rw [if_neg hu]
  cases hfind : (queryMessages t chatId).find? (fun m => m.messageId == messageId) with
  | none => rfl
  | some m =>
    have h1 := List.mem_of_find?_eq_some hfind
    rw [queryMessages, mem_sortBySk] at h1
    have h2 := List.mem_filter.mp h1
    have hcid : m.chatId = chatId := by simpa using h2.2
    have hid : m.messageId = messageId := by simpa using List.find?_some hfind
    have hne := hnone m h2.1 hcid hid
    simp [hne]

/-- C7: `deleteMessage` fails with NotFound when every message in the
chat's partition with the given messageId has a stored userId different
from the caller's — covering both a non-author caller on an existing
message and a missing messageId. -/
theorem deleteMessage_notFound_on_mismatch (t : Table)
    (chatId messageId userId touchNow : String)
    (hu : userId ≠ "")
    (hnone : ∀ m ∈ t.messages, m.chatId = chatId → m.messageId = messageId →
      m.userId ≠ userId) :
    deleteMessage t chatId messageId userId touchNow = .error .notFound :=
  deleteMessage_mismatch_aux t chatId messageId userId touchNow hu hnone

/-- Witness for C7: the chat owner `u1` attempting to delete the
assistant-authored message `m2`, and a delete of a missing messageId. -/
theorem deleteMessage_notFound_on_mismatch_witness :
    deleteMessage tableA "c1" "m2" "u1" "2024-06-01T00:00:00.000Z" =
      .error .notFound ∧
    deleteMessage tableA "c1" "nope" "u1" "2024-06-01T00:00:00.000Z" =
      .error .notFound :=
  ⟨deleteMessage_notFound_on_mismatch tableA "c1" "m2" "u1" _
      (by decide) (by decide),
    deleteMessage_notFound_on_mismatch tableA "c1" "nope" "u1" _
      (by decide) (by decide)⟩

/-- C8: `updateChatName` on an owned chat followed by `getChatForUser`
yields a Chat whose name is the new name and whose chatId, userId and
createdAt are unchanged, with updatedAt the only other field that may
change. -/
theorem updateChatName_roundtrip (t : Table) (chatId userId name now : String)
    (chat : ChatItem)
    (hu : userId ≠ "") (hname : validName name = true)
    (hfind : t.chats.find? (fun c => c.chatId == chatId) = some chat)
    (hown : chat.userId = userId) :
    ∃ t' c, updateChatName t chatId userId name now = .ok (c, t') ∧
      getChatForUser t' chatId userId = .ok (some c) ∧
      c.name = name ∧ c.chatId = chat.chatId ∧ c.userId = chat.userId ∧
      c.createdAt = chat.createdAt := by
  have howned := ownedChat_some t chatId userId chat hfind hown
  refine ⟨{ t with chats := t.chats.map (fun c =>
      if c.chatId == chatId then { c with name := name, updatedAt := now }
      else c) },
    { chat with name := name, updatedAt := now }, ?_, ?_, rfl, rfl, rfl, rfl⟩
  · simp [updateChatName, hu, howned, hname]
  · have hfind2 : (t.chats.map (fun c =>
        if c.chatId == chatId then { c with name := name, updatedAt := now }
        else c)).find? (fun c => c.chatId == chatId)
          = some { chat with name := name, updatedAt := now } := by
      rw [find?_update_chatId t.chats chatId
        (fun c => { c with name := name, updatedAt := now }) (fun _ => rfl), hfind]
      rfl
    have hoc := ownedChat_some
      { t with chats := t.chats.map (fun c =>
          if c.chatId == chatId then { c with name := name, updatedAt := now }
          else c) }
      chatId userId { chat with name := name, updatedAt := now } hfind2 hown
    unfold getChatForUser
    rw [if_neg hu, hoc]

/-- Witness for C8: renaming `u1`'s chat `c1` in the sample table. -/
theorem updateChatName_roundtrip_witness :
    ∃ t' c,
      updateChatName tableA "c1" "u1" "renamed" "2024-06-01T00:00:00.000Z" =
        .ok (c, t') ∧
      getChatForUser t' "c1" "u1" = .ok (some c) ∧
      c.name = "renamed" ∧ c.chatId = chatA.chatId ∧ c.userId = chatA.userId ∧
      c.createdAt = chatA.createdAt :=
  updateChatName_roundtrip tableA "c1" "u1" "renamed" "2024-06-01T00:00:00.000Z"
    chatA (by decide) (by decide) (by decide) (by decide)

/-- C9: `deleteMessage` performs no chat-existence or chat-ownership
check: success depends only on finding a message in the chat's partition
with matching messageId and a stored userId equal to the caller's. A
message's author can delete it even in a chat the author does not own,
and a message whose stored userId is the synthetic sender `assistant` can
never be deleted through `deleteMessage` by any (real, non-`assistant`)
caller, including the chat's owner. -/
theorem deleteMessage_checks_authorship_only (t : Table)
    (chatId messageId userId touchNow : String) (hu : userId ≠ "") :
    (∀ chat m,
      t.chats.find? (fun c => c.chatId == chatId) = some chat →
      chat.userId ≠ userId →
      (queryMessages t chatId).find? (fun x => x.messageId == messageId) = some m →
      m.userId = userId →
      ∃ t', deleteMessage t chatId messageId userId touchNow = .ok (true, t')) ∧
    (userId ≠ "assistant" →
      (∀ m ∈ t.messages, m.chatId = chatId → m.messageId = messageId →
        m.userId = "assistant") →
      deleteMessage t chatId messageId userId touchNow = .error .notFound) := by
  constructor
  · intro chat m hchat hnotown hfindm hauthor
    have hany : t.chats.any (fun c => c.chatId == chatId) = true := by
      rw [List.any_eq_true]
      exact ⟨chat, List.mem_of_find?_eq_some hchat,
        List.find?_some (p := fun c : ChatItem => c.chatId == chatId) hchat⟩
    refine ⟨⟨touchChats t.chats chatId touchNow,
      deleteMessageKey t.messages chatId m.createdAt messageId⟩, ?_⟩
    unfold deleteMessage
    rw [if_neg hu, hfindm]
    simp [hauthor, touchChatPatch, hany]
  · intro hne hall
    apply deleteMessage_mismatch_aux t chatId messageId userId touchNow hu
    intro m hm hcid hid
    rw [hall m hm hcid hid]
    exact fun h => hne h.symm

/-- Witness for C9: `u1` deleting their own message `m3` inside `u2`'s chat
`c2`, and `u2` (the owner of no matching authored message) being unable to
delete the assistant message `m2` in a table where chat `c1` belongs to
`u1`. -/
theorem deleteMessage_checks_authorship_only_witness :
    (∃ t', deleteMessage tableA "c2" "m3" "u1" "2024-06-01T00:00:00.000Z" =
      .ok (true, t')) ∧
    deleteMessage tableA "c1" "m2" "u1" "2024-06-01T00:00:00.000Z" =
      .error .notFound :=
  ⟨(deleteMessage_checks_authorship_only tableA "c2" "m3" "u1"
        "2024-06-01T00:00:00.000Z" (by decide)).1 chatB msgCross
      (by decide) (by decide) (by decide) (by decide),
    (deleteMessage_checks_authorship_only tableA "c1" "m2" "u1"
        "2024-06-01T00:00:00.000Z" (by decide)).2 (by decide) (by decide)⟩

/-- C10: `updateMessage` checks only chat ownership, never message
authorship: for a chat owned by the caller and a message found in that
chat's partition by messageId, it succeeds and overwrites the content
(and, only when the argument is present, reasoningContent) regardless of
the message's stored userId or role. -/
theorem updateMessage_ignores_authorship (t : Table)
    (chatId messageId userId content : String) (rc : Option String)
    (now touchNow : String) (chat : ChatItem) (m : MessageItem)
    (hu : userId ≠ "")
    (hfind : t.chats.find? (fun c => c.chatId == chatId) = some chat)
    (hown : chat.userId = userId)
    (hmsg : (queryMessages t chatId).find? (fun x => x.messageId == messageId) =
      some m) :
    ∃ t' u,
      updateMessage t chatId messageId userId content rc now touchNow =
        .ok (u, t') ∧
      u.content = content ∧ u.messageId = m.messageId ∧ u.userId = m.userId ∧
      u.role = m.role ∧ u.createdAt = m.createdAt ∧
      (rc = none → u.reasoningContent = m.reasoningContent) ∧
      (∀ r, rc = some r → u.reasoningContent = some r) := by
  have howned := ownedChat_some t chatId userId chat hfind hown
  refine ⟨⟨touchChats t.chats chatId touchNow,
      t.messages.map (fun x =>
        if x.chatId == chatId && x.createdAt == m.createdAt && x.messageId == messageId
        then { m with
          content := content
          reasoningContent := match rc with
            | some r => some r
            | none => m.reasoningContent
          updatedAt := now }
        else x)⟩,
    { m with
      content := content
      reasoningContent := match rc with
        | some r => some r
        | none => m.reasoningContent
      updatedAt := now }, ?_, rfl, rfl, rfl, rfl, rfl, ?_, ?_⟩
  · unfold updateMessage
    rw [if_neg hu, howned, hmsg]
  · intro h
    rw [h]
  · intro r h
    rw [h]

/-- Witness for C10: the chat owner `u1` editing the assistant-authored
message `m2`. -/
theorem updateMessage_ignores_authorship_witness :
    ∃ t' u,
      updateMessage tableA "c1" "m2" "u1" "edited" none
        "2024-06-01T00:00:00.000Z" "2024-06-01T00:00:00.000Z" = .ok (u, t') ∧
      u.content = "edited" ∧ u.messageId = msgAssist.messageId ∧
      u.userId = msgAssist.userId ∧ u.role = msgAssist.role ∧
      u.createdAt = msgAssist.createdAt ∧
      ((none : Option String) = none → u.reasoningContent = msgAssist.reasoningContent) ∧
      (∀ r, (none : Option String) = some r → u.reasoningContent = some r) :=
  updateMessage_ignores_authorship tableA "c1" "m2" "u1" "edited" none
    "2024-06-01T00:00:00.000Z" "2024-06-01T00:00:00.000Z" chatA msgAssist
    (by decide) (by decide) (by decide) (by decide)

end ChatDal
